import Mathlib

/-!
# Editor form assembly (`management/editor/editor.go`)

A shallow embedding of package `editor`: the visibility decision `hiddenFor`,
the per-field writer `addFieldToEditorView`, the default-field injection
`addPostDefaultFieldsToEditorView` and the assembler `Form`.

Modelling conventions.

* `[]byte` is `List UInt8`; a Go string literal written to the buffer is the
  UTF-8 encoding (`utf8`) of the corresponding Lean string literal.
* The process-wide variable `Role` is an explicit argument.
* `*bytes.Buffer` is a record holding the accumulated bytes together with the
  list of arguments of the write calls made so far. The error result of
  `Write`/`WriteString` belongs to the standard library, not to this package,
  so it is a parameter (`Faults`): the outcome of the `n`-th write call.
  `bytesBuffer` is the instance in which every write succeeds, which is what
  Go's `bytes.Buffer` does.
* `log.Println` appends a line to an explicit log.
* The content object `post` ranges over an arbitrary type `Post`; the two
  fragment generators `Input` and `Timestamp` and the outcome of the type
  assertion `post.(Mergeable)` are fields of `Elements Post`.
* A Go result pair `([]byte, error)` is `Option Bytes × Option Error`, where
  `none` in either component is Go's `nil`.
-/

namespace editor

/-- Go's `[]byte`. -/
abbrev Bytes := List UInt8

/-- The bytes of a Go string literal: its UTF-8 encoding. -/
def utf8 (s : String) : Bytes :=
  s.data.flatMap String.utf8EncodeChar

/-- Go's `error` values. -/
abbrev Error := String

/-- Field is used to create the editable view for a field within a particular
content struct. -/
structure Field where
  View : Bytes
  Role : List String
  deriving DecidableEq

/-- The outcome of the `n`-th write call on a buffer (counting from zero):
`none` when the write succeeds, `some (k, err)` when it accepts only the first
`k` bytes of its argument and returns the error `err`. -/
abbrev Faults := Nat → Option (Nat × Error)

/-- Go's `bytes.Buffer`: every write succeeds. -/
def bytesBuffer : Faults :=
  fun _ => none

/-- A byte buffer: its contents and the arguments of the write calls made on
it so far, oldest first. -/
structure Buffer where
  data : Bytes
  calls : List Bytes
  deriving DecidableEq

/-- The call `b.Write(p)`: returns the buffer afterwards and the error result. -/
def Buffer.Write (φ : Faults) (b : Buffer) (p : Bytes) : Buffer × Option Error :=
  match φ b.calls.length with
  | none => ({ data := b.data ++ p, calls := b.calls ++ [p] }, none)
  | some (k, err) => ({ data := b.data ++ p.take k, calls := b.calls ++ [p] }, some err)

/-- The call `b.WriteString(s)`. -/
def Buffer.WriteString (φ : Faults) (b : Buffer) (s : String) : Buffer × Option Error :=
  b.Write φ (utf8 s)

/-- The call `b.Bytes()`. -/
def Buffer.Bytes (b : Buffer) : Bytes :=
  b.data

/-- Editor is a view containing fields to manage content. -/
structure Editor where
  ViewBuf : Buffer
  deriving DecidableEq

/-- What a call of `Form` changes besides its result: the editor it builds and
the lines it hands to `log.Println`. -/
structure State where
  editor : Editor
  log : List String
  deriving DecidableEq

/-- The collaborators of this package that `Form` consults about the content
object: the fragment generators `Input` and `Timestamp` (field name, content
object, options in the order they are written) and whether the object
implements `Mergeable`. -/
structure Elements (Post : Type) where
  Input : String → Post → List (String × String) → Bytes
  Timestamp : String → Post → List (String × String) → Bytes
  isMergeable : Post → Bool

/-- The loop of `hiddenFor`: `for _, role := range roles`. -/
def hiddenForLoop (Role : String) : List String → Bool
  | [] => false
  | role :: rest => if role = Role then true else hiddenForLoop Role rest

/-- The function `hiddenFor(roles)`, reading the process-wide `Role`. -/
def hiddenFor (Role : String) (roles : List String) : Bool :=
  if Role = "admin" then false else hiddenForLoop Role roles

/-- The opening of the table and of its editor-fields cell. -/
def openHeader : String :=
  "<table><tbody class=\"row\"><tr class=\"col s8 editor-fields\"><td class=\"col s12\">"

/-- The closing of a cell and of its row. -/
def closeRow : String :=
  "</td></tr>"

/-- The opening of the default-fields cell. -/
def defaultHeader : String :=
  "<tr class=\"col s4 default-fields\"><td class=\"col s12\">"

/-- The publish date and time controls: the variable `publishTime` of `Form`. -/
def publishTime : String :=
  "
<div class=\"row content-only __ponzu\">
\t<div class=\"input-field col s6\">
\t\t<label class=\"active\">KK</label>
\t\t<select class=\"month __ponzu browser-default\">
\t\t\t<option value=\"1\">Jaanuar</option>
\t\t\t<option value=\"2\">Veebruar</option>
\t\t\t<option value=\"3\">Märts</option>
\t\t\t<option value=\"4\">Aprill</option>
\t\t\t<option value=\"5\">Mai</option>
\t\t\t<option value=\"6\">Juuni</option>
\t\t\t<option value=\"7\">Juuli</option>
\t\t\t<option value=\"8\">August</option>
\t\t\t<option value=\"9\">September</option>
\t\t\t<option value=\"10\">Oktoober</option>
\t\t\t<option value=\"11\">November</option>
\t\t\t<option value=\"12\">Detsember</option>
\t\t</select>
\t</div>
\t<div class=\"input-field col s2\">
\t\t<label class=\"active\">PP</label>
\t\t<input value=\"\" class=\"day __ponzu\" maxlength=\"2\" type=\"text\" placeholder=\"PP\" />
\t</div>
\t<div class=\"input-field col s4\">
\t\t<label class=\"active\">AAAA</label>
\t\t<input value=\"\" class=\"year __ponzu\" maxlength=\"4\" type=\"text\" placeholder=\"AAAA\" />
\t</div>
</div>

<div class=\"row content-only __ponzu\">
\t<div class=\"input-field col s3\">
\t\t<label class=\"active\">TT</label>
\t\t<input value=\"\" class=\"hour __ponzu\" maxlength=\"2\" type=\"text\" placeholder=\"TT\" />
\t</div>
\t<div class=\"col s1\">:</div>
\t<div class=\"input-field col s3\">
\t\t<label class=\"active\">MM</label>
\t\t<input value=\"\" class=\"minute __ponzu\" maxlength=\"2\" type=\"text\" placeholder=\"MM\" />
\t</div>
\t<div class=\"input-field col s4\">
\t\t<label class=\"active\">Period</label>
\t\t<select class=\"period __ponzu browser-default\">
\t\t\t<option value=\"AM\">AM</option>
\t\t\t<option value=\"PM\">PM</option>
\t\t</select>
\t</div>
</div>
\t"

/-- The control block for the role `admin`: save and delete. -/
def submitAdmin : String :=
  "
\t<div class=\"input-field post-controls\">
\t\t<button class=\"right waves-effect waves-light btn green save-post\" type=\"submit\">Salvesta</button>
\t\t<button class=\"right waves-effect waves-light btn red delete-post\" type=\"submit\">Kustuta</button>
\t</div>
\t"

/-- The control block for every other role: save. -/
def submitOther : String :=
  "
\t<div class=\"input-field post-controls\">
\t\t<button class=\"right waves-effect waves-light btn green save-post\" type=\"submit\">Salvesta</button>
\t</div>
\t"

/-- The approve and reject controls with their notice, added for `Mergeable` content. -/
def approveBlock : String :=
  "
<div class=\"row external post-controls\">
\t<div class=\"col s12 input-field\">
\t\t<button class=\"right waves-effect waves-light btn blue approve-post\" type=\"submit\">Kinnitage</button>
\t\t<button class=\"right waves-effect waves-light btn grey darken-2 reject-post\" type=\"submit\">Keeldu</button>
\t</div>
\t<label class=\"approve-details right-align col s12\">See sisu on heakskiidu ootel. Klikkides \"Kinnita\" avaldatakse see kohe. Klõpsates \"Keeldu\", kustutatakse see.</label>
</div>
"

/-- The variable `script` of `Form`. -/
def script : String :=
  "
<script>
\t$(function() \x7b
\t\tvar form = $(\x27form\x27),
\t\t\tsave = form.find(\x27button.save-post\x27),
\t\t\tdel = form.find(\x27button.delete-post\x27),
\t\t\texternal = form.find(\x27.post-controls.external\x27),
\t\t\tid = form.find(\x27input[name=id]\x27),
\t\t\ttimestamp = $(\x27.__ponzu.content-only\x27),
\t\t\tslug = $(\x27input[name=slug]\x27);

\t\t// hide if this is a new post, or a non-post editor page
\t\tif (id.val() === \x27-1\x27 || form.attr(\x27action\x27) !== \x27/admin/edit\x27) \x7b
\t\t\tdel.hide();
\t\t\texternal.hide();
\t\t\x7d

\t\t// hide approval if not on a pending content item
\t\tif (getParam(\x27status\x27) !== \x27pending\x27) \x7b
\t\t\texternal.hide();
\t\t\x7d

\t\t// no timestamp, slug visible on addons
\t\tif (form.attr(\x27action\x27) === \x27/admin/addon\x27) \x7b
\t\t\ttimestamp.hide();
\t\t\tslug.parent().hide();
\t\t\x7d

\t\tsave.on(\x27click\x27, function(e) \x7b
\t\t\te.preventDefault();

\t\t\tif (getParam(\x27status\x27) === \x27pending\x27) \x7b
\t\t\t\tvar action = form.attr(\x27action\x27);
\t\t\t\tform.attr(\x27action\x27, action + \x27?status=pending\x27)
\t\t\t\x7d

\t\t\tform.submit();
\t\t\x7d);

\t\tdel.on(\x27click\x27, function(e) \x7b
\t\t\te.preventDefault();
\t\t\tvar action = form.attr(\x27action\x27);
\t\t\taction = action + \x27/delete\x27;
\t\t\tform.attr(\x27action\x27, action);

\t\t\tif (confirm(\"Palun kinnita:\\n\\nKas soovite kindlasti selle sisu kustutada?\\nSeda ei saa taastada.\")) \x7b
\t\t\t\tform.submit();
\t\t\t\x7d
\t\t\x7d);

\t\texternal.find(\x27button.approve-post\x27).on(\x27click\x27, function(e) \x7b
\t\t\te.preventDefault();
\t\t\tvar action = form.attr(\x27action\x27);
\t\t\taction = action + \x27/approve\x27;
\t\t\tform.attr(\x27action\x27, action);

\t\t\tform.submit();
\t\t\x7d);

\t\texternal.find(\x27button.reject-post\x27).on(\x27click\x27, function(e) \x7b
\t\t\te.preventDefault();
\t\t\tvar action = form.attr(\x27action\x27);
\t\t\taction = action + \x27/delete?reject=true\x27;
\t\t\tform.attr(\x27action\x27, action);

\t\t\tif (confirm(\"[Palun kinnita:\\n\\nKas olete kindel, et soovite selle postituse tagasi lükata?\\nSee kustutab selle sisu ja seda ei saa taastada.\")) \x7b
\t\t\t\tform.submit();
\t\t\t\x7d
\t\t\x7d);
\t\x7d);
</script>
"

/-- The closing of the last cell, of its row and of the table. -/
def closeTable : String :=
  "</td></tr></tbody></table>"

/-- The opening of the display-suppressing wrapper. -/
def hideOpen : String :=
  "<div style=\"display:none;\">"

/-- The closing of the display-suppressing wrapper. -/
def hideClose : String :=
  "</div>"

/-- The function `addFieldToEditorView(e, f)`. -/
def addFieldToEditorView (φ : Faults) (Role : String) (st : State) (f : Field) :
    State × Option Error :=
  let View := if hiddenFor Role f.Role then (utf8 hideOpen ++ f.View) ++ utf8 hideClose else f.View
  match st.editor.ViewBuf.Write φ View with
  | (buf, some err) =>
    ({ editor := { ViewBuf := buf },
       log := st.log ++ ["Error writing field view to editor view buffer"] }, some err)
  | (buf, none) => ({ editor := { ViewBuf := buf }, log := st.log }, none)

/-- The slice `defaults` of `addPostDefaultFieldsToEditorView`. -/
def defaults {Post : Type} (el : Elements Post) (p : Post) : List Field :=
  [ { View := el.Input "Slug" p
        [("label", "URL Slug"), ("type", "text"), ("disabled", "true"),
         ("placeholder", "Määratakse automaatselt")],
      Role := [] },
    { View := el.Timestamp "Timestamp" p [("type", "hidden"), ("class", "timestamp __ponzu")],
      Role := [] },
    { View := el.Timestamp "Updated" p [("type", "hidden"), ("class", "updated __ponzu")],
      Role := [] } ]

/-- The loop of `addPostDefaultFieldsToEditorView`, which returns at the first
error. -/
def addDefaultsLoop (φ : Faults) (Role : String) : State → List Field → State × Option Error
  | st, [] => (st, none)
  | st, f :: rest =>
    match addFieldToEditorView φ Role st f with
    | (st1, some err) => (st1, some err)
    | (st1, none) => addDefaultsLoop φ Role st1 rest

/-- The function `addPostDefaultFieldsToEditorView(p, e)`. -/
def addPostDefaultFieldsToEditorView {Post : Type} (φ : Faults) (Role : String)
    (el : Elements Post) (p : Post) (st : State) : State × Option Error :=
  addDefaultsLoop φ Role st (defaults el p)

/-- The statement pattern `_, err = editor.ViewBuf.WriteString(s)` followed by
`if err != nil`, whose branch logs before `Form` returns. -/
def writeHTML (φ : Faults) (st : State) (s : String) : State × Option Error :=
  match st.editor.ViewBuf.WriteString φ s with
  | (buf, some err) =>
    ({ editor := { ViewBuf := buf },
       log := st.log ++ ["Error writing HTML string to editor Form buffer"] }, some err)
  | (buf, none) => ({ editor := { ViewBuf := buf }, log := st.log }, none)

/-- The loop `for _, f := range fields` of `Form`: the result of
`addFieldToEditorView` is dropped. -/
def addFieldsLoop (φ : Faults) (Role : String) : State → List Field → State
  | st, [] => st
  | st, f :: rest => addFieldsLoop φ Role (addFieldToEditorView φ Role st f).1 rest

/-- The value of the variable `submit` of `Form` after `if Role == "admin"`. -/
def submitBase (Role : String) : String :=
  if Role = "admin" then submitAdmin else submitOther

/-- The value of the variable `submit` of `Form` after the type assertion
`post.(Mergeable)`, which is the value written. -/
def submit {Post : Type} (Role : String) (el : Elements Post) (post : Post) : String :=
  if el.isMergeable post then submitBase Role ++ approveBlock else submitBase Role

/-- The function `Form(post, fields...)`, with the state it leaves behind. -/
def FormRun {Post : Type} (φ : Faults) (Role : String) (el : Elements Post) (post : Post)
    (fields : List Field) : (Option Bytes × Option Error) × State :=
  let st0 : State := { editor := { ViewBuf := { data := [], calls := [] } }, log := [] }
  match writeHTML φ st0 openHeader with
  | (st1, some err) => ((none, some err), st1)
  | (st1, none) =>
  let st2 := addFieldsLoop φ Role st1 fields
  match writeHTML φ st2 closeRow with
  | (st3, some err) => ((none, some err), st3)
  | (st3, none) =>
  match writeHTML φ st3 defaultHeader with
  | (st4, some err) => ((none, some err), st4)
  | (st4, none) =>
  match writeHTML φ st4 publishTime with
  | (st5, some err) => ((none, some err), st5)
  | (st5, none) =>
  match addPostDefaultFieldsToEditorView φ Role el post st5 with
  | (st6, some err) => ((none, some err), st6)
  | (st6, none) =>
  match writeHTML φ st6 (submit Role el post ++ script ++ closeTable) with
  | (st7, some err) => ((none, some err), st7)
  | (st7, none) => ((some st7.editor.ViewBuf.Bytes, none), st7)

/-- The function `Form(post, fields...)`: its two results. -/
def Form {Post : Type} (φ : Faults) (Role : String) (el : Elements Post) (post : Post)
    (fields : List Field) : Option Bytes × Option Error :=
  (FormRun φ Role el post fields).1

/-- The rendering of one caller field: its view wrapped in the
display-suppressing fragment when it is hidden for `Role`, its view otherwise. -/
def render (Role : String) (f : Field) : Bytes :=
  if hiddenFor Role f.Role then utf8 hideOpen ++ f.View ++ utf8 hideClose else f.View

/-- A small content type for concrete runs: `true` is an object that is
`Mergeable`, `false` one that is only `Editable`. -/
def sampleElements : Elements Bool where
  Input := fun name _ _ => utf8 name
  Timestamp := fun name _ _ => utf8 name
  isMergeable := fun b => b

/-- The slug fragment: the `Input` fragment for "Slug". -/
def slugFragment {Post : Type} (el : Elements Post) (post : Post) : Bytes :=
  el.Input "Slug" post
    [("label", "URL Slug"), ("type", "text"), ("disabled", "true"),
     ("placeholder", "Määratakse automaatselt")]

/-- The created-timestamp fragment: the `Timestamp` fragment for "Timestamp". -/
def createdFragment {Post : Type} (el : Elements Post) (post : Post) : Bytes :=
  el.Timestamp "Timestamp" post [("type", "hidden"), ("class", "timestamp __ponzu")]

/-- The updated-timestamp fragment: the `Timestamp` fragment for "Updated". -/
def updatedFragment {Post : Type} (el : Elements Post) (post : Post) : Bytes :=
  el.Timestamp "Updated" post [("type", "hidden"), ("class", "updated __ponzu")]

/-- The control markup chosen from the two decisions (is the role `admin`, is
the content object `Mergeable`). -/
def controlMarkup : Bool → Bool → String
  | true, true => submitAdmin ++ approveBlock
  | true, false => submitAdmin
  | false, true => submitOther ++ approveBlock
  | false, false => submitOther

/-- Everything of the document that follows the closing of the editor-fields
cell: the default-fields header, the publish date and time block, the three
default fragments, the control markup, the script and the closing. -/
def defaultsRegion {Post : Type} (Role : String) (el : Elements Post) (post : Post) : Bytes :=
  utf8 defaultHeader ++ utf8 publishTime ++ slugFragment el post ++ createdFragment el post ++
    updatedFragment el post ++ utf8 (controlMarkup (decide (Role = "admin")) (el.isMergeable post)) ++
    utf8 script ++ utf8 closeTable

/-- The reference document: the fixed concatenation a successful `Form` is
expected to return. -/
def referenceDocument {Post : Type} (Role : String) (el : Elements Post) (post : Post)
    (fields : List Field) : Bytes :=
  utf8 openHeader ++ (fields.map (render Role)).flatten ++ utf8 closeRow ++
    defaultsRegion Role el post

/-- The write calls that make up `defaultsRegion`, in order. -/
def defaultsCalls {Post : Type} (Role : String) (el : Elements Post) (post : Post) : List Bytes :=
  [utf8 defaultHeader, utf8 publishTime, slugFragment el post, createdFragment el post,
   updatedFragment el post,
   utf8 (controlMarkup (decide (Role = "admin")) (el.isMergeable post) ++ script ++ closeTable)]

/-- The reference sequence of write calls of a successful `Form`. -/
def referenceCalls {Post : Type} (Role : String) (el : Elements Post) (post : Post)
    (fields : List Field) : List Bytes :=
  utf8 openHeader :: (fields.map (render Role) ++ utf8 closeRow :: defaultsCalls Role el post)

/-- Everything of the document that precedes the control markup. -/
def beforeControls {Post : Type} (Role : String) (el : Elements Post) (post : Post)
    (fields : List Field) : Bytes :=
  utf8 openHeader ++ (fields.map (render Role)).flatten ++ utf8 closeRow ++ utf8 defaultHeader ++
    utf8 publishTime ++ slugFragment el post ++ createdFragment el post ++ updatedFragment el post

/-- The number of positions of `s` at which `pat` occurs. -/
def occurrences (pat s : Bytes) : Nat :=
  (s.tails.filter (fun t => pat.isPrefixOf t)).length

/-- The markup of the save button. -/
def saveButton : String :=
  "<button class=\"right waves-effect waves-light btn green save-post\" type=\"submit\">Salvesta</button>"

/-- The markup of the delete button. -/
def deleteButton : String :=
  "<button class=\"right waves-effect waves-light btn red delete-post\" type=\"submit\">Kustuta</button>"

/-- A buffer whose first write call fails, accepting nothing. -/
def failFirstWrite : Faults :=
  fun n => if n = 0 then some (0, "write failed") else none

/-- A buffer whose second write call fails, accepting nothing. In `Form` with
at least one caller field that call is the write of the first field's view. -/
def failSecondWrite : Faults :=
  fun n => if n = 1 then some (0, "write failed") else none

/-- A second content type for concrete runs: a number is `Mergeable` when it
is `1`; the generators produce the same fragments as `sampleElements`. -/
def otherElements : Elements Nat where
  Input := fun name _ _ => utf8 name
  Timestamp := fun name _ _ => utf8 name
  isMergeable := fun n => n == 1

/-- The write calls `Form` makes for the caller fields: the calls after the
first one (the header), as many as there are fields. -/
def fieldCalls {Post : Type} (φ : Faults) (Role : String) (el : Elements Post) (post : Post)
    (fields : List Field) : List Bytes :=
  ((FormRun φ Role el post fields).2.editor.ViewBuf.calls.drop 1).take fields.length

/-- The number of opening wrappers added: the calls that start with the opening
fragment followed by the view of their field. -/
def openersAdded (calls : List Bytes) (fields : List Field) : Nat :=
  ((calls.zip fields).filter (fun cf => (utf8 hideOpen ++ cf.2.View).isPrefixOf cf.1)).length

/-- The number of closing wrappers added: the calls that end with the view of
their field followed by the closing fragment. -/
def closersAdded (calls : List Bytes) (fields : List Field) : Nat :=
  ((calls.zip fields).filter (fun cf => (cf.2.View ++ utf8 hideClose).isSuffixOf cf.1)).length

/-- Two fields with the same view whose `Role` lists have the same elements. -/
def sameUpToRoleSet (f g : Field) : Prop :=
  f.View = g.View ∧ ∀ r, r ∈ f.Role ↔ r ∈ g.Role

/-- The error of the first write call, among the calls numbered in the list,
that the buffer fails. -/
def firstFault (φ : Faults) : List Nat → Option Error
  | [] => none
  | i :: rest =>
    match φ i with
    | some (_, err) => some err
    | none => firstFault φ rest

/-- The numbers of the write calls whose error `Form` checks, for `n` caller
fields: call `0` is the opening header, calls `1` to `n` are the caller fields,
calls `n + 1` to `n + 3` the three structural strings that follow, calls
`n + 4` to `n + 6` the default fields and call `n + 7` the controls. -/
def checkedCalls (n : Nat) : List Nat :=
  [0, n + 1, n + 2, n + 3, n + 4, n + 5, n + 6, n + 7]

/-- A buffer whose second and third write calls fail. In `Form` with one caller
field these are the write of the field's view and the structural write that
closes the editor-fields cell. -/
def failFieldThenClose : Faults :=
  fun n =>
    if n = 1 then some (0, "field write failed")
    else if n = 2 then some (3, "write failed")
    else none

/-! ## Auxiliary facts -/

theorem utf8_append (a b : String) : utf8 (a ++ b) = utf8 a ++ utf8 b := by
  simp [utf8, String.data_append]

theorem hiddenForLoop_iff (Role : String) (roles : List String) :
    hiddenForLoop Role roles = true ↔ Role ∈ roles := by
  induction roles with
  | nil => simp [hiddenForLoop]
  | cons role rest ih =>
    by_cases h : role = Role
    · simp [hiddenForLoop, h]
    · have h2 : ¬ Role = role := fun e => h e.symm
      simp [hiddenForLoop, h, h2, ih]

theorem hiddenFor_iff (Role : String) (roles : List String) :
    hiddenFor Role roles = true ↔ Role ≠ "admin" ∧ Role ∈ roles := by
  unfold hiddenFor
  by_cases h : Role = "admin"
  · simp [h]
  · simp [h, hiddenForLoop_iff]

theorem hiddenFor_nil (Role : String) : hiddenFor Role [] = false := by
  unfold hiddenFor
  by_cases h : Role = "admin" <;> simp [h, hiddenForLoop]

theorem hiddenFor_admin (roles : List String) : hiddenFor "admin" roles = false := by
  simp [hiddenFor]

theorem render_admin (f : Field) : render "admin" f = f.View := by
  simp [render, hiddenFor_admin]

theorem render_of_hidden (Role : String) (f : Field) (h : hiddenFor Role f.Role = true) :
    render Role f = utf8 hideOpen ++ f.View ++ utf8 hideClose := by
  simp [render, h]

theorem render_of_visible (Role : String) (f : Field) (h : hiddenFor Role f.Role = false) :
    render Role f = f.View := by
  simp [render, h]

theorem write_bytesBuffer (b : Buffer) (p : Bytes) :
    b.Write bytesBuffer p = ({ data := b.data ++ p, calls := b.calls ++ [p] }, none) := by
  simp [Buffer.Write, bytesBuffer]

theorem writeHTML_bytesBuffer (st : State) (s : String) :
    writeHTML bytesBuffer st s =
      ({ editor := { ViewBuf := { data := st.editor.ViewBuf.data ++ utf8 s,
                                  calls := st.editor.ViewBuf.calls ++ [utf8 s] } },
         log := st.log }, none) := by
  simp [writeHTML, Buffer.WriteString, write_bytesBuffer]

theorem addFieldToEditorView_bytesBuffer (Role : String) (st : State) (f : Field) :
    addFieldToEditorView bytesBuffer Role st f =
      ({ editor := { ViewBuf := { data := st.editor.ViewBuf.data ++ render Role f,
                                  calls := st.editor.ViewBuf.calls ++ [render Role f] } },
         log := st.log }, none) := by
  simp [addFieldToEditorView, write_bytesBuffer, render]

theorem addFieldsLoop_bytesBuffer (Role : String) (fields : List Field) (st : State) :
    addFieldsLoop bytesBuffer Role st fields =
      { editor := { ViewBuf :=
          { data := st.editor.ViewBuf.data ++ (fields.map (render Role)).flatten,
            calls := st.editor.ViewBuf.calls ++ fields.map (render Role) } },
        log := st.log } := by
  induction fields generalizing st with
  | nil => simp [addFieldsLoop]
  | cons f rest ih => simp [addFieldsLoop, addFieldToEditorView_bytesBuffer, ih]

theorem addDefaultsLoop_bytesBuffer (Role : String) (fields : List Field) (st : State) :
    addDefaultsLoop bytesBuffer Role st fields =
      ({ editor := { ViewBuf :=
          { data := st.editor.ViewBuf.data ++ (fields.map (render Role)).flatten,
            calls := st.editor.ViewBuf.calls ++ fields.map (render Role) } },
         log := st.log }, none) := by
  induction fields generalizing st with
  | nil => simp [addDefaultsLoop]
  | cons f rest ih => simp [addDefaultsLoop, addFieldToEditorView_bytesBuffer, ih]

theorem map_render_defaults {Post : Type} (Role : String) (el : Elements Post) (post : Post) :
    (defaults el post).map (render Role) =
      [slugFragment el post, createdFragment el post, updatedFragment el post] := by
  simp [defaults, render, hiddenFor_nil, slugFragment, createdFragment, updatedFragment]

theorem submit_eq_controlMarkup {Post : Type} (Role : String) (el : Elements Post) (post : Post) :
    submit Role el post = controlMarkup (decide (Role = "admin")) (el.isMergeable post) := by
  unfold submit submitBase
  by_cases h : Role = "admin" <;> cases hm : el.isMergeable post <;> simp [h, controlMarkup]

/-- With a buffer whose writes all succeed, `Form` returns the reference
document with a nil error, having made the reference sequence of write calls
and logged nothing. -/
theorem FormRun_bytesBuffer {Post : Type} (Role : String) (el : Elements Post) (post : Post)
    (fields : List Field) :
    FormRun bytesBuffer Role el post fields =
      ((some (referenceDocument Role el post fields), none),
       { editor := { ViewBuf := { data := referenceDocument Role el post fields,
                                  calls := referenceCalls Role el post fields } },
         log := [] }) := by
  simp only [FormRun, writeHTML_bytesBuffer, addFieldsLoop_bytesBuffer,
    addPostDefaultFieldsToEditorView, addDefaultsLoop_bytesBuffer, map_render_defaults,
    Buffer.Bytes, referenceDocument, referenceCalls, defaultsRegion, defaultsCalls, utf8_append,
    submit_eq_controlMarkup]
  simp

theorem Form_bytesBuffer {Post : Type} (Role : String) (el : Elements Post) (post : Post)
    (fields : List Field) :
    Form bytesBuffer Role el post fields = (some (referenceDocument Role el post fields), none) := by
  simp [Form, FormRun_bytesBuffer]

theorem calls_bytesBuffer {Post : Type} (Role : String) (el : Elements Post) (post : Post)
    (fields : List Field) :
    (FormRun bytesBuffer Role el post fields).2.editor.ViewBuf.calls =
      referenceCalls Role el post fields := by
  simp [FormRun_bytesBuffer]

theorem map_render_admin (fields : List Field) :
    fields.map (render "admin") = fields.map Field.View := by
  induction fields with
  | nil => rfl
  | cons f rest ih => simp [render_admin]

theorem Form_eq_before_controls {Post : Type} (Role : String) (el : Elements Post) (post : Post)
    (fields : List Field) :
    Form bytesBuffer Role el post fields =
      (some (beforeControls Role el post fields ++ utf8 (submitBase Role) ++
        (if el.isMergeable post = true then utf8 approveBlock else []) ++
        utf8 script ++ utf8 closeTable), none) := by
  rw [Form_bytesBuffer, referenceDocument, defaultsRegion, beforeControls,
    ← submit_eq_controlMarkup, submit]
  cases hm : el.isMergeable post <;> simp [utf8_append]

set_option maxRecDepth 1000000 in
theorem saveButton_infix_submitAdmin : utf8 saveButton <:+: utf8 submitAdmin := by decide

set_option maxRecDepth 1000000 in
theorem saveButton_infix_submitOther : utf8 saveButton <:+: utf8 submitOther := by decide

set_option maxRecDepth 1000000 in
theorem deleteButton_infix_submitAdmin : utf8 deleteButton <:+: utf8 submitAdmin := by decide

set_option maxRecDepth 1000000 in
theorem deletePost_not_infix_submitOther : ¬ utf8 "delete-post" <:+: utf8 submitOther := by
  decide

set_option maxRecDepth 1000000 in
theorem deletePost_infix_deleteButton : utf8 "delete-post" <:+: utf8 deleteButton := by decide

set_option maxRecDepth 1000000 in
theorem occurrences_button_submitOther : occurrences (utf8 "<button") (utf8 submitOther) = 1 := by
  decide

set_option maxRecDepth 1000000 in
theorem occurrences_button_submitAdmin : occurrences (utf8 "<button") (utf8 submitAdmin) = 2 := by
  decide

set_option maxRecDepth 1000000 in
theorem approveDetails_infix_approveBlock :
    utf8 "approve-details" <:+: utf8 approveBlock := by decide

set_option maxRecDepth 1000000 in
theorem approveDetails_not_infix_submitAdmin :
    ¬ utf8 "approve-details" <:+: utf8 submitAdmin := by decide

set_option maxRecDepth 1000000 in
theorem approveDetails_not_infix_submitOther :
    ¬ utf8 "approve-details" <:+: utf8 submitOther := by decide

theorem table_prefix_openHeader : utf8 "<table>" <+: utf8 openHeader := by decide

theorem table_suffix_closeTable : utf8 "</table>" <:+ utf8 closeTable := by decide

theorem view_infix_render (Role : String) (f : Field) : f.View <:+: render Role f := by
  unfold render
  split
  · exact List.infix_append _ _ _
  · exact List.infix_refl _

theorem render_infix_referenceDocument {Post : Type} (Role : String) (el : Elements Post)
    (post : Post) (fields : List Field) (f : Field) (hf : f ∈ fields) :
    render Role f <:+: referenceDocument Role el post fields := by
  have h1 : render Role f <:+: (fields.map (render Role)).flatten :=
    List.infix_of_mem_flatten (List.mem_map_of_mem _ hf)
  refine h1.trans ?_
  unfold referenceDocument
  exact ⟨utf8 openHeader, utf8 closeRow ++ defaultsRegion Role el post, by simp⟩

theorem length_hideOpen : (utf8 hideOpen).length = 27 := by decide

theorem length_hideClose : (utf8 hideClose).length = 6 := by decide

theorem opener_test (Role : String) (f : Field) :
    (utf8 hideOpen ++ f.View).isPrefixOf (render Role f) = hiddenFor Role f.Role := by
  cases h : hiddenFor Role f.Role
  · rw [render_of_visible Role f h]
    apply Bool.eq_false_iff.2
    intro hc
    have hl := (List.isPrefixOf_iff_prefix.1 hc).length_le
    rw [List.length_append, length_hideOpen] at hl
    omega
  · rw [render_of_hidden Role f h, List.isPrefixOf_iff_prefix]
    exact List.prefix_append _ _

theorem closer_test (Role : String) (f : Field) :
    (f.View ++ utf8 hideClose).isSuffixOf (render Role f) = hiddenFor Role f.Role := by
  cases h : hiddenFor Role f.Role
  · rw [render_of_visible Role f h]
    apply Bool.eq_false_iff.2
    intro hc
    have hl := (List.isSuffixOf_iff_suffix.1 hc).length_le
    rw [List.length_append, length_hideClose] at hl
    omega
  · rw [render_of_hidden Role f h, List.isSuffixOf_iff_suffix, List.append_assoc]
    exact List.suffix_append _ _

theorem openersAdded_map_render (Role : String) (fields : List Field) :
    openersAdded (fields.map (render Role)) fields =
      (fields.filter (fun f => hiddenFor Role f.Role)).length := by
  induction fields with
  | nil => rfl
  | cons f rest ih =>
    unfold openersAdded at ih ⊢
    cases h : hiddenFor Role f.Role <;>
      simp [List.filter_cons, opener_test, h, -List.isPrefixOf_iff_prefix] <;>
      simpa [-List.isPrefixOf_iff_prefix] using ih

theorem closersAdded_map_render (Role : String) (fields : List Field) :
    closersAdded (fields.map (render Role)) fields =
      (fields.filter (fun f => hiddenFor Role f.Role)).length := by
  induction fields with
  | nil => rfl
  | cons f rest ih =>
    unfold closersAdded at ih ⊢
    cases h : hiddenFor Role f.Role <;>
      simp [List.filter_cons, closer_test, h, -List.isSuffixOf_iff_suffix] <;>
      simpa [-List.isSuffixOf_iff_suffix] using ih

theorem fieldCalls_bytesBuffer {Post : Type} (Role : String) (el : Elements Post) (post : Post)
    (fields : List Field) :
    fieldCalls bytesBuffer Role el post fields = fields.map (render Role) := by
  rw [fieldCalls, calls_bytesBuffer, referenceCalls]
  simp [List.take_append_eq_append_take]

theorem hiddenFor_congr (Role : String) (a b : List String) (h : ∀ r, r ∈ a ↔ r ∈ b) :
    hiddenFor Role a = hiddenFor Role b := by
  rw [Bool.eq_iff_iff, hiddenFor_iff, hiddenFor_iff, h Role]

theorem addFieldToEditorView_congr (φ : Faults) (Role : String) (st : State) (f g : Field)
    (hv : f.View = g.View) (hh : hiddenFor Role f.Role = hiddenFor Role g.Role) :
    addFieldToEditorView φ Role st f = addFieldToEditorView φ Role st g := by
  simp only [addFieldToEditorView, hv, hh]

theorem addFieldsLoop_congr (φ : Faults) (Role : String) (fs gs : List Field)
    (h : List.Forall₂ sameUpToRoleSet fs gs) (st : State) :
    addFieldsLoop φ Role st fs = addFieldsLoop φ Role st gs := by
  induction h generalizing st with
  | nil => rfl
  | cons hfg _ ih =>
    simp only [addFieldsLoop]
    rw [addFieldToEditorView_congr φ Role st _ _ hfg.1 (hiddenFor_congr Role _ _ hfg.2), ih]

theorem addFieldToEditorView_calls (φ : Faults) (Role : String) (st : State) (f : Field) :
    (addFieldToEditorView φ Role st f).1.editor.ViewBuf.calls =
      st.editor.ViewBuf.calls ++ [render Role f] := by
  unfold addFieldToEditorView Buffer.Write render
  cases h : φ st.editor.ViewBuf.calls.length <;> simp

theorem addDefaultsLoop_calls (φ : Faults) (Role : String) (fields : List Field) (st : State) :
    ∃ n, (addDefaultsLoop φ Role st fields).1.editor.ViewBuf.calls =
      st.editor.ViewBuf.calls ++ (fields.map (render Role)).take n := by
  induction fields generalizing st with
  | nil => exact ⟨0, by simp [addDefaultsLoop]⟩
  | cons f rest ih =>
    have hc := addFieldToEditorView_calls φ Role st f
    unfold addDefaultsLoop
    rcases hr : addFieldToEditorView φ Role st f with ⟨st1, _ | err⟩
    · rw [hr] at hc
      obtain ⟨n, hn⟩ := ih st1
      refine ⟨n + 1, ?_⟩
      simp only [hn]
      rw [show st1.editor.ViewBuf.calls = st.editor.ViewBuf.calls ++ [render Role f] from hc]
      simp
    · rw [hr] at hc
      refine ⟨1, ?_⟩
      simpa using hc

theorem sum_length_render (Role : String) (fields : List Field) :
    ((fields.map (render Role)).map List.length).sum =
      (fields.map (fun f => f.View.length)).sum +
        33 * (fields.filter (fun f => hiddenFor Role f.Role)).length := by
  induction fields with
  | nil => rfl
  | cons f rest ih =>
    cases h : hiddenFor Role f.Role
    · simp only [List.map_cons, List.sum_cons, List.filter_cons, h, render_of_visible Role f h, ih]
      simp
      omega
    · simp only [List.map_cons, List.sum_cons, List.filter_cons, h, render_of_hidden Role f h, ih,
        List.length_append, length_hideOpen, length_hideClose]
      simp
      omega

theorem writeHTML_step (φ : Faults) (st : State) (s : String) (n : Nat)
    (hn : st.editor.ViewBuf.calls.length = n) :
    ∃ st1 : State, st1.editor.ViewBuf.calls.length = n + 1 ∧
      writeHTML φ st s = (st1, (φ n).map Prod.snd) := by
  unfold writeHTML Buffer.WriteString Buffer.Write
  rw [hn]
  cases h : φ n with
  | none => exact ⟨_, by simp [hn], rfl⟩
  | some ke => exact ⟨_, by simp [hn], rfl⟩

theorem addFieldToEditorView_step (φ : Faults) (Role : String) (st : State) (f : Field) (n : Nat)
    (hn : st.editor.ViewBuf.calls.length = n) :
    ∃ st1 : State, st1.editor.ViewBuf.calls.length = n + 1 ∧
      addFieldToEditorView φ Role st f = (st1, (φ n).map Prod.snd) := by
  unfold addFieldToEditorView Buffer.Write
  rw [hn]
  cases h : φ n with
  | none => exact ⟨_, by simp [hn], rfl⟩
  | some ke => exact ⟨_, by simp [hn], rfl⟩

theorem addFieldsLoop_length (φ : Faults) (Role : String) (fields : List Field) (st : State) :
    (addFieldsLoop φ Role st fields).editor.ViewBuf.calls.length =
      st.editor.ViewBuf.calls.length + fields.length := by
  induction fields generalizing st with
  | nil => simp [addFieldsLoop]
  | cons f rest ih =>
    rw [addFieldsLoop, ih, addFieldToEditorView_calls]
    simp
    omega

theorem Form_of_firstFault {Post : Type} (φ : Faults) (Role : String) (el : Elements Post)
    (post : Post) (fields : List Field) (err : Error)
    (h : firstFault φ (checkedCalls fields.length) = some err) :
    Form φ Role el post fields = (none, some err) := by
  unfold checkedCalls at h
  unfold Form FormRun
  obtain ⟨st1, hl1, hw1⟩ := writeHTML_step φ
    { editor := { ViewBuf := { data := [], calls := [] } }, log := [] } openHeader 0 rfl
  simp only [hw1]
  cases h0 : φ 0 with
  | some ke => 
    simp [firstFault, h0] at h
    simp [h]
  | none =>
    simp only [firstFault, h0] at h
    simp only [Option.map]
    have hl2 : (addFieldsLoop φ Role st1 fields).editor.ViewBuf.calls.length =
        fields.length + 1 := by
      rw [addFieldsLoop_length, hl1]
      omega
    obtain ⟨st3, hl3, hw3⟩ := writeHTML_step φ (addFieldsLoop φ Role st1 fields) closeRow _ hl2
    simp only [hw3]
    cases h1 : φ (fields.length + 1) with
    | some ke =>
      simp [h1] at h
      simp [h]
    | none =>
      simp only [h1] at h
      simp only [Option.map]
      obtain ⟨st4, hl4, hw4⟩ := writeHTML_step φ st3 defaultHeader _ hl3
      simp only [hw4]
      cases h2 : φ (fields.length + 1 + 1) with
      | some ke =>
        simp [h2] at h
        simp [h]
      | none =>
        simp only [h2] at h
        simp only [Option.map]
        obtain ⟨st5, hl5, hw5⟩ := writeHTML_step φ st4 publishTime _ hl4
        simp only [hw5]
        cases h3 : φ (fields.length + 1 + 1 + 1) with
        | some ke =>
          simp [h3] at h
          simp [h]
        | none =>
          simp only [h3] at h
          simp only [Option.map, addPostDefaultFieldsToEditorView, defaults, addDefaultsLoop]
          obtain ⟨st6, hl6, hw6⟩ := addFieldToEditorView_step φ Role st5
            { View := el.Input "Slug" post
                [("label", "URL Slug"), ("type", "text"), ("disabled", "true"),
                 ("placeholder", "Määratakse automaatselt")],
              Role := [] } _ hl5
          simp only [hw6]
          cases h4 : φ (fields.length + 1 + 1 + 1 + 1) with
          | some ke =>
            simp [h4] at h
            simp [h]
          | none =>
            simp only [h4] at h
            simp only [Option.map]
            obtain ⟨st7, hl7, hw7⟩ := addFieldToEditorView_step φ Role st6
              { View := el.Timestamp "Timestamp" post
                  [("type", "hidden"), ("class", "timestamp __ponzu")],
                Role := [] } _ hl6
            simp only [hw7]
            cases h5 : φ (fields.length + 1 + 1 + 1 + 1 + 1) with
            | some ke =>
              simp [h5] at h
              simp [h]
            | none =>
              simp only [h5] at h
              simp only [Option.map]
              obtain ⟨st8, hl8, hw8⟩ := addFieldToEditorView_step φ Role st7
                { View := el.Timestamp "Updated" post
                    [("type", "hidden"), ("class", "updated __ponzu")],
                  Role := [] } _ hl7
              simp only [hw8]
              cases h6 : φ (fields.length + 1 + 1 + 1 + 1 + 1 + 1) with
              | some ke =>
                simp [h6] at h
                simp [h]
              | none =>
                simp only [h6] at h
                simp only [Option.map]
                obtain ⟨st9, hl9, hw9⟩ := writeHTML_step φ st8
                  (submit Role el post ++ script ++ closeTable) _ hl8
                simp only [hw9]
                cases h7 : φ (fields.length + 1 + 1 + 1 + 1 + 1 + 1 + 1) with
                | some ke =>
                  simp [h7] at h
                  simp [h]
                | none => simp [h7] at h

theorem firstFault_of_first (φ : Faults) (l : List Nat) (hl : l.Pairwise (fun a b => a < b))
    (i k : Nat) (err : Error) (hmem : i ∈ l) (hfail : φ i = some (k, err))
    (hprev : ∀ j, j ∈ l → j < i → φ j = none) : firstFault φ l = some err := by
  induction l with
  | nil => simp at hmem
  | cons a rest ih =>
    rw [List.pairwise_cons] at hl
    by_cases ha : a = i
    · subst ha
      simp [firstFault, hfail]
    · have hi : i ∈ rest := by
        rcases List.mem_cons.1 hmem with h | h
        · exact absurd h.symm ha
        · exact h
      have hlt : a < i := hl.1 i hi
      have hnone : φ a = none := hprev a (List.mem_cons_self a rest) hlt
      simp only [firstFault, hnone]
      exact ih hl.2 hi (fun j hj hji => hprev j (List.mem_cons_of_mem a hj) hji)

theorem checkedCalls_pairwise (n : Nat) : (checkedCalls n).Pairwise (fun a b => a < b) := by
  simp [checkedCalls]

theorem mem_checkedCalls (n i : Nat) :
    i ∈ checkedCalls n ↔ i = 0 ∨ (n < i ∧ i ≤ n + 7) := by
  simp [checkedCalls]
  omega

/-! ## The claims -/

/-- C1: `hiddenFor(roles)` is true exactly when `Role` is not "admin" and
`Role` is an element of `roles`; it is false for every list when `Role` is
"admin", and false for the empty list under every `Role`. -/
theorem hiddenFor_true_iff_not_admin_and_mem (Role : String) (roles : List String) :
    (hiddenFor Role roles = true ↔ Role ≠ "admin" ∧ Role ∈ roles) ∧
    hiddenFor "admin" roles = false ∧
    hiddenFor Role [] = false :=
  ⟨hiddenFor_iff Role roles, hiddenFor_admin roles, hiddenFor_nil Role⟩

/-- C2: for a `Role` other than "admin", a caller field whose `Role` list
contains `Role` is in the document `Form` returns as the contiguous bytes
`<div style="display:none;">`, the field's view, `</div>`. -/
theorem Form_wraps_hidden_field {Post : Type} (Role : String) (el : Elements Post) (post : Post)
    (fields : List Field) (f : Field)
    (hRole : Role ≠ "admin") (hf : f ∈ fields) (hmem : Role ∈ f.Role) :
    ∃ doc, Form bytesBuffer Role el post fields = (some doc, none) ∧
      (utf8 "<div style=\"display:none;\">" ++ f.View ++ utf8 "</div>") <:+: doc := by
  refine ⟨referenceDocument Role el post fields, Form_bytesBuffer Role el post fields, ?_⟩
  have hh : hiddenFor Role f.Role = true := (hiddenFor_iff Role f.Role).2 ⟨hRole, hmem⟩
  have hr : render Role f = utf8 "<div style=\"display:none;\">" ++ f.View ++ utf8 "</div>" :=
    render_of_hidden Role f hh
  have h1 : render Role f <:+: (fields.map (render Role)).flatten :=
    List.infix_of_mem_flatten (List.mem_map_of_mem _ hf)
  rw [← hr]
  refine h1.trans ?_
  unfold referenceDocument
  exact ⟨utf8 openHeader, utf8 closeRow ++ defaultsRegion Role el post, by simp⟩

/-- C2, at `Role = "editor"` with one field whose `Role` list is `["editor"]`. -/
theorem Form_wraps_hidden_field_witness :
    ∃ doc, Form bytesBuffer "editor" sampleElements false [⟨utf8 "x", ["editor"]⟩] =
        (some doc, none) ∧
      (utf8 "<div style=\"display:none;\">" ++ utf8 "x" ++ utf8 "</div>") <:+: doc :=
  Form_wraps_hidden_field "editor" sampleElements false [⟨utf8 "x", ["editor"]⟩]
    ⟨utf8 "x", ["editor"]⟩ (by decide) (by simp) (by simp)

/-- C3: when `Role` is "admin" no field is wrapped. The write calls of `Form`
between the opening editor-fields header and the following `</td></tr>` are
the fields' views in order, the document is the header, the views, the
`</td></tr>` and a remainder that does not depend on the fields, and two field
lists with the same views (whatever their `Role` lists) give the same result. -/
theorem Form_admin_never_wraps {Post : Type} (el : Elements Post) (post : Post)
    (fs gs : List Field) (hviews : fs.map Field.View = gs.map Field.View) :
    (FormRun bytesBuffer "admin" el post fs).2.editor.ViewBuf.calls =
      utf8 "<table><tbody class=\"row\"><tr class=\"col s8 editor-fields\"><td class=\"col s12\">" ::
        (fs.map Field.View ++ utf8 "</td></tr>" :: defaultsCalls "admin" el post) ∧
    Form bytesBuffer "admin" el post fs =
      (some (utf8 "<table><tbody class=\"row\"><tr class=\"col s8 editor-fields\"><td class=\"col s12\">" ++
        (fs.map Field.View).flatten ++ utf8 "</td></tr>" ++ defaultsRegion "admin" el post), none) ∧
    Form bytesBuffer "admin" el post fs = Form bytesBuffer "admin" el post gs := by
  refine ⟨?_, ?_, ?_⟩
  · rw [calls_bytesBuffer, referenceCalls, map_render_admin]
    rfl
  · rw [Form_bytesBuffer, referenceDocument, map_render_admin]
    rfl
  · rw [Form_bytesBuffer, Form_bytesBuffer, referenceDocument, referenceDocument,
      map_render_admin, map_render_admin, hviews]

/-- C3, at two one-field lists with the same view and different `Role` lists. -/
theorem Form_admin_never_wraps_witness :
    Form bytesBuffer "admin" sampleElements false [⟨utf8 "x", ["admin", "editor"]⟩] =
      Form bytesBuffer "admin" sampleElements false [⟨utf8 "x", []⟩] :=
  (Form_admin_never_wraps sampleElements false [⟨utf8 "x", ["admin", "editor"]⟩]
    [⟨utf8 "x", []⟩] rfl).2.2

/-- C4: the control block `Form` appends after the default fields contains the
save button for every `Role`, and contains the delete button exactly when
`Role` is "admin"; for every other `Role` it has one button only. -/
theorem Form_save_always_delete_iff_admin {Post : Type} (Role : String) (el : Elements Post)
    (post : Post) (fields : List Field) :
    Form bytesBuffer Role el post fields =
      (some (beforeControls Role el post fields ++ utf8 (submitBase Role) ++
        (if el.isMergeable post = true then utf8 approveBlock else []) ++
        utf8 script ++ utf8 closeTable), none) ∧
    utf8 saveButton <:+: utf8 (submitBase Role) ∧
    (utf8 deleteButton <:+: utf8 (submitBase Role) ↔ Role = "admin") ∧
    (utf8 "delete-post" <:+: utf8 (submitBase Role) ↔ Role = "admin") ∧
    (Role ≠ "admin" → occurrences (utf8 "<button") (utf8 (submitBase Role)) = 1) := by
  refine ⟨Form_eq_before_controls Role el post fields, ?_, ?_, ?_, ?_⟩
  · by_cases h : Role = "admin"
    · simpa [submitBase, h] using saveButton_infix_submitAdmin
    · simpa [submitBase, h] using saveButton_infix_submitOther
  · by_cases h : Role = "admin"
    · simpa [submitBase, h] using deleteButton_infix_submitAdmin
    · have hn : ¬ utf8 deleteButton <:+: utf8 submitOther := fun hc =>
        deletePost_not_infix_submitOther (deletePost_infix_deleteButton.trans hc)
      simpa [submitBase, h] using hn
  · by_cases h : Role = "admin"
    · simpa [submitBase, h] using
        deletePost_infix_deleteButton.trans deleteButton_infix_submitAdmin
    · simpa [submitBase, h] using deletePost_not_infix_submitOther
  · intro h
    simpa [submitBase, h] using occurrences_button_submitOther

/-- C4, at `Role = "editor"`: the base control block has exactly one button. -/
theorem Form_save_always_delete_iff_admin_witness :
    "editor" ≠ "admin" ∧ occurrences (utf8 "<button") (utf8 (submitBase "editor")) = 1 :=
  ⟨by decide,
   (Form_save_always_delete_iff_admin "editor" sampleElements false []).2.2.2.2 (by decide)⟩

/-- C5: the approve/reject block with its `approve-details` notice is appended
to the control markup exactly when the content object is `Mergeable`, whatever
`Role` is. -/
theorem Form_approve_block_iff_mergeable {Post : Type} (Role Role2 : String)
    (el : Elements Post) (post : Post) (fields : List Field) :
    Form bytesBuffer Role el post fields =
      (some (beforeControls Role el post fields ++ utf8 (submitBase Role) ++
        (if el.isMergeable post = true then utf8 approveBlock else []) ++
        utf8 script ++ utf8 closeTable), none) ∧
    submit Role el post =
      submitBase Role ++ (if el.isMergeable post = true then approveBlock else "") ∧
    (utf8 "approve-details" <:+: utf8 (submit Role el post) ↔ el.isMergeable post = true) ∧
    (utf8 "approve-details" <:+: utf8 (submit Role el post) ↔
      utf8 "approve-details" <:+: utf8 (submit Role2 el post)) := by
  have key : ∀ R : String,
      (utf8 "approve-details" <:+: utf8 (submit R el post) ↔ el.isMergeable post = true) := by
    intro R
    cases hm : el.isMergeable post
    · by_cases h : R = "admin"
      · simpa [submit, submitBase, hm, h] using approveDetails_not_infix_submitAdmin
      · simpa [submit, submitBase, hm, h] using approveDetails_not_infix_submitOther
    · have hi : utf8 "approve-details" <:+: utf8 (submitBase R ++ approveBlock) := by
        rw [utf8_append]
        exact approveDetails_infix_approveBlock.trans (List.suffix_append _ _).isInfix
      simpa [submit, hm] using hi
  refine ⟨Form_eq_before_controls Role el post fields, ?_, key Role, ?_⟩
  · cases hm : el.isMergeable post <;> simp [submit, hm]
  · rw [key Role, key Role2]

/-- C5, at `Role = "editor"` with a `Mergeable` object and no caller field: the
control markup has the save button and the approve/reject notice, and no
delete button. -/
theorem Form_approve_block_iff_mergeable_witness :
    utf8 "approve-details" <:+: utf8 (submit "editor" sampleElements true) ∧
    utf8 saveButton <:+: utf8 (submit "editor" sampleElements true) ∧
    ¬ utf8 "delete-post" <:+: utf8 (submitBase "editor") :=
  ⟨(Form_approve_block_iff_mergeable "editor" "admin" sampleElements true []).2.2.1.2 rfl,
   (by
     have h := saveButton_infix_submitOther
     have e : submit "editor" sampleElements true = submitOther ++ approveBlock := by
       simp [submit, submitBase, sampleElements]
     rw [e, utf8_append]
     exact h.trans (List.prefix_append _ _).isInfix),
   (by simpa [submitBase] using deletePost_not_infix_submitOther)⟩

/-- C6: `Form` writes each of the three default fields exactly once, in the
order slug, created timestamp, updated timestamp, after every caller field:
its write calls are the header, the caller fields, the two structural strings
and the publish block, then the three fragments, then the controls; the
document is the concatenation in the same order. -/
theorem Form_default_fields_once_in_order {Post : Type} (Role : String) (el : Elements Post)
    (post : Post) (fields : List Field) :
    (FormRun bytesBuffer Role el post fields).2.editor.ViewBuf.calls =
      utf8 openHeader :: (fields.map (render Role) ++
        [utf8 closeRow, utf8 defaultHeader, utf8 publishTime,
         slugFragment el post, createdFragment el post, updatedFragment el post,
         utf8 (submit Role el post ++ script ++ closeTable)]) ∧
    Form bytesBuffer Role el post fields =
      (some ((utf8 openHeader ++ (fields.map (render Role)).flatten ++ utf8 closeRow ++
          utf8 defaultHeader ++ utf8 publishTime) ++
        (slugFragment el post ++ createdFragment el post ++ updatedFragment el post) ++
        utf8 (submit Role el post ++ script ++ closeTable)), none) := by
  constructor
  · rw [calls_bytesBuffer, referenceCalls, defaultsCalls, submit_eq_controlMarkup]
  · rw [Form_bytesBuffer, referenceDocument, defaultsRegion, submit_eq_controlMarkup]
    simp [utf8_append]

/-- C7, as stated, fails: a failing write of a caller field's view is not
propagated. With one caller field and a buffer whose second write call fails,
that call is the write of the field's view; `addFieldToEditorView` logs the
failure, the loop of `Form` drops the error, and `Form` returns a nil error
with a document instead of the error with a nil document. -/
theorem Form_drops_field_write_error :
    failSecondWrite 1 = some (0, "write failed") ∧
    (FormRun failSecondWrite "editor" sampleElements false
        [⟨utf8 "x", []⟩]).2.editor.ViewBuf.calls.take 2 = [utf8 openHeader, utf8 "x"] ∧
    (FormRun failSecondWrite "editor" sampleElements false [⟨utf8 "x", []⟩]).2.log =
      ["Error writing field view to editor view buffer"] ∧
    Form failSecondWrite "editor" sampleElements false [⟨utf8 "x", []⟩] =
      (some (referenceDocument "editor" sampleElements false []), none) ∧
    Form failSecondWrite "editor" sampleElements false [⟨utf8 "x", []⟩] ≠
      (none, some "write failed") := by
  have hform : Form failSecondWrite "editor" sampleElements false [⟨utf8 "x", []⟩] =
      (some (referenceDocument "editor" sampleElements false []), none) := by
    simp [Form, FormRun, writeHTML, Buffer.WriteString, Buffer.Write, failSecondWrite,
      addFieldsLoop, addFieldToEditorView, addPostDefaultFieldsToEditorView, addDefaultsLoop,
      defaults, hiddenFor_nil, Buffer.Bytes, referenceDocument, defaultsRegion, utf8_append,
      submit_eq_controlMarkup, slugFragment, createdFragment, updatedFragment]
  refine ⟨rfl, by decide, by decide, hform, ?_⟩
  rw [hform]
  simp

/-- C7, amended: the failure of a structural write or of the write of a default
field is propagated with no partial document. If call `i` is one of these
writes (the header, or one of the seven writes after the caller fields), it
fails with `err`, and no such write before it fails, then `Form` returns `err`
and a nil document, whatever the writes of the caller fields do. -/
theorem Form_propagates_checked_write_failure {Post : Type} (φ : Faults) (Role : String)
    (el : Elements Post) (post : Post) (fields : List Field) (i k : Nat) (err : Error)
    (hi : i = 0 ∨ (fields.length < i ∧ i ≤ fields.length + 7))
    (hfail : φ i = some (k, err))
    (hfirst : ∀ j, j < i → (j = 0 ∨ fields.length < j) → φ j = none) :
    Form φ Role el post fields = (none, some err) := by
  apply Form_of_firstFault
  refine firstFault_of_first φ _ (checkedCalls_pairwise _) i k err
    ((mem_checkedCalls _ _).2 hi) hfail ?_
  intro j hj hji
  rcases (mem_checkedCalls _ _).1 hj with h | h
  · exact hfirst j hji (Or.inl h)
  · exact hfirst j hji (Or.inr h.1)

/-- C7, amended, at one caller field and a buffer that fails the write of the
field's view (call 1) and then the structural write after it (call 2): `Form`
returns the error of call 2 and a nil document. -/
theorem Form_propagates_checked_write_failure_witness :
    failFieldThenClose 2 = some (3, "write failed") ∧
    Form failFieldThenClose "editor" sampleElements false [⟨utf8 "x", ["editor"]⟩] =
      (none, some "write failed") :=
  ⟨rfl, Form_propagates_checked_write_failure failFieldThenClose "editor" sampleElements false
    [⟨utf8 "x", ["editor"]⟩] 2 3 "write failed" (Or.inr (by decide)) rfl
    (by
      intro j hj hc
      have h0 : j = 0 := by
        simp only [List.length_singleton] at hc
        omega
      subst h0
      rfl)⟩

/-- C8: if the first write call (the opening header) fails, `Form` returns that
error and a nil document, having logged the failure and made no other write
call. -/
theorem Form_first_write_fails {Post : Type} (φ : Faults) (Role : String) (el : Elements Post)
    (post : Post) (fields : List Field) (k : Nat) (err : Error) (h : φ 0 = some (k, err)) :
    FormRun φ Role el post fields =
      ((none, some err),
       { editor := { ViewBuf :=
           { data := (utf8 "<table><tbody class=\"row\"><tr class=\"col s8 editor-fields\"><td class=\"col s12\">").take k,
             calls := [utf8 "<table><tbody class=\"row\"><tr class=\"col s8 editor-fields\"><td class=\"col s12\">"] } },
         log := ["Error writing HTML string to editor Form buffer"] }) ∧
    Form φ Role el post fields = (none, some err) := by
  have e : FormRun φ Role el post fields =
      ((none, some err),
       { editor := { ViewBuf := { data := (utf8 openHeader).take k, calls := [utf8 openHeader] } },
         log := ["Error writing HTML string to editor Form buffer"] }) := by
    simp [FormRun, writeHTML, Buffer.WriteString, Buffer.Write, h]
  exact ⟨e, by rw [Form, e]⟩

/-- C8, at a buffer whose first write call fails. -/
theorem Form_first_write_fails_witness :
    failFirstWrite 0 = some (0, "write failed") ∧
    Form failFirstWrite "editor" sampleElements false [⟨utf8 "x", ["editor"]⟩] =
      (none, some "write failed") :=
  ⟨rfl, (Form_first_write_fails failFirstWrite "editor" sampleElements false
    [⟨utf8 "x", ["editor"]⟩] 0 "write failed" rfl).2⟩

/-- C9: caller fields render in the order given. The write calls between the
opening header and the structural `</td></tr>` are the renderings of the
fields in order, the editor-fields region of the document is their
concatenation, and the region of `xs ++ ys` is the region of `xs` followed by
the region of `ys`. -/
theorem Form_fields_in_order {Post : Type} (Role : String) (el : Elements Post) (post : Post)
    (xs ys : List Field) :
    (FormRun bytesBuffer Role el post xs).2.editor.ViewBuf.calls =
      utf8 "<table><tbody class=\"row\"><tr class=\"col s8 editor-fields\"><td class=\"col s12\">" ::
        (xs.map (render Role) ++ utf8 "</td></tr>" :: defaultsCalls Role el post) ∧
    Form bytesBuffer Role el post xs =
      (some (utf8 "<table><tbody class=\"row\"><tr class=\"col s8 editor-fields\"><td class=\"col s12\">" ++
        (xs.map (render Role)).flatten ++ utf8 "</td></tr>" ++ defaultsRegion Role el post), none) ∧
    Form bytesBuffer Role el post (xs ++ ys) =
      (some (utf8 "<table><tbody class=\"row\"><tr class=\"col s8 editor-fields\"><td class=\"col s12\">" ++
        ((xs.map (render Role)).flatten ++ (ys.map (render Role)).flatten) ++
        utf8 "</td></tr>" ++ defaultsRegion Role el post), none) := by
  refine ⟨?_, ?_, ?_⟩
  · rw [calls_bytesBuffer, referenceCalls]
    rfl
  · rw [Form_bytesBuffer, referenceDocument]
    rfl
  · rw [Form_bytesBuffer, referenceDocument, List.map_append, List.flatten_append]
    rfl

/-- C10: the document `Form` returns is the reference concatenation (header,
rendered caller fields, `</td></tr>`, default-fields header, publish block,
slug, created timestamp, updated timestamp, control markup, script, closing),
so it starts with `<table>` and ends with `</table>`. -/
theorem Form_eq_referenceDocument {Post : Type} (Role : String) (el : Elements Post)
    (post : Post) (fields : List Field) :
    Form bytesBuffer Role el post fields = (some (referenceDocument Role el post fields), none) ∧
    utf8 "<table>" <+: referenceDocument Role el post fields ∧
    utf8 "</table>" <:+ referenceDocument Role el post fields := by
  refine ⟨Form_bytesBuffer Role el post fields, ?_, ?_⟩
  · obtain ⟨t, ht⟩ := table_prefix_openHeader
    refine ⟨t ++ ((fields.map (render Role)).flatten ++ utf8 closeRow ++
      defaultsRegion Role el post), ?_⟩
    rw [referenceDocument, ← ht]
    simp
  · obtain ⟨t, ht⟩ := table_suffix_closeTable
    refine ⟨utf8 openHeader ++ (fields.map (render Role)).flatten ++ utf8 closeRow ++
      (utf8 defaultHeader ++ utf8 publishTime ++ slugFragment el post ++
        createdFragment el post ++ updatedFragment el post ++
        utf8 (controlMarkup (decide (Role = "admin")) (el.isMergeable post)) ++
        utf8 script) ++ t, ?_⟩
    rw [referenceDocument, defaultsRegion, ← ht]
    simp

/-- C11: the result of `Form` is a function of `Role`, of whether the content
object is `Mergeable`, of the fields and of the three default fragments: two
calls that agree on these (and meet the same buffer) return the same document
and leave the same state, whatever the content objects and generators are. -/
theorem Form_deterministic {P Q : Type} (φ : Faults) (Role : String) (el1 : Elements P)
    (el2 : Elements Q) (p : P) (q : Q) (fields : List Field)
    (hm : el1.isMergeable p = el2.isMergeable q)
    (hs : slugFragment el1 p = slugFragment el2 q)
    (hc : createdFragment el1 p = createdFragment el2 q)
    (hu : updatedFragment el1 p = updatedFragment el2 q) :
    Form φ Role el1 p fields = Form φ Role el2 q fields ∧
    FormRun φ Role el1 p fields = FormRun φ Role el2 q fields := by
  have hd : defaults el1 p = defaults el2 q := by
    simp only [slugFragment, createdFragment, updatedFragment] at hs hc hu
    simp [defaults, hs, hc, hu]
  have hsub : submit Role el1 p = submit Role el2 q := by
    simp [submit, hm]
  have hrun : FormRun φ Role el1 p fields = FormRun φ Role el2 q fields := by
    simp only [FormRun, addPostDefaultFieldsToEditorView, hd, hsub]
  exact ⟨by rw [Form, Form, hrun], hrun⟩

/-- C11, at two different content types whose objects agree on the four
observations. -/
theorem Form_deterministic_witness :
    Form bytesBuffer "editor" sampleElements true [⟨utf8 "x", ["editor"]⟩] =
      Form bytesBuffer "editor" otherElements 1 [⟨utf8 "x", ["editor"]⟩] :=
  (Form_deterministic bytesBuffer "editor" sampleElements otherElements true 1
    [⟨utf8 "x", ["editor"]⟩] rfl rfl rfl rfl).1

/-- C12: hidden fields are suppressed, not omitted: the view of every caller
field occurs as contiguous bytes in the document `Form` returns, hidden or
not. -/
theorem Form_keeps_every_view {Post : Type} (Role : String) (el : Elements Post) (post : Post)
    (fields : List Field) (f : Field) (hf : f ∈ fields) :
    ∃ doc, Form bytesBuffer Role el post fields = (some doc, none) ∧ f.View <:+: doc :=
  ⟨referenceDocument Role el post fields, Form_bytesBuffer Role el post fields,
    (view_infix_render Role f).trans (render_infix_referenceDocument Role el post fields f hf)⟩

/-- C12, at `Role = "editor"` with one hidden and one visible field. -/
theorem Form_keeps_every_view_witness :
    ∃ doc, Form bytesBuffer "editor" sampleElements false
        [⟨utf8 "x", ["editor"]⟩, ⟨utf8 "y", []⟩] = (some doc, none) ∧
      utf8 "x" <:+: doc :=
  Form_keeps_every_view "editor" sampleElements false
    [⟨utf8 "x", ["editor"]⟩, ⟨utf8 "y", []⟩] ⟨utf8 "x", ["editor"]⟩ (by simp)

/-- C13: the publish date and time block is always written, unwrapped, right
after the default-fields header and right before the slug field, for every
`Role`, content object and field list; its bytes are the constant
`publishTime`. -/
theorem Form_publishTime_always {Post : Type} (Role : String) (el : Elements Post)
    (post : Post) (fields : List Field) :
    (FormRun bytesBuffer Role el post fields).2.editor.ViewBuf.calls =
      utf8 openHeader :: (fields.map (render Role) ++
        [utf8 closeRow, utf8 "<tr class=\"col s4 default-fields\"><td class=\"col s12\">",
         utf8 publishTime, slugFragment el post, createdFragment el post,
         updatedFragment el post, utf8 (submit Role el post ++ script ++ closeTable)]) ∧
    Form bytesBuffer Role el post fields =
      (some ((utf8 openHeader ++ (fields.map (render Role)).flatten ++ utf8 closeRow) ++
        utf8 "<tr class=\"col s4 default-fields\"><td class=\"col s12\">" ++ utf8 publishTime ++
        (slugFragment el post ++ createdFragment el post ++ updatedFragment el post ++
          utf8 (submit Role el post ++ script ++ closeTable))), none) := by
  constructor
  · rw [calls_bytesBuffer, referenceCalls, defaultsCalls, submit_eq_controlMarkup]
    rfl
  · rw [Form_bytesBuffer, referenceDocument, defaultsRegion, submit_eq_controlMarkup]
    simp [utf8_append, defaultHeader]

/-- C14: wrapper balance. The bytes `addFieldToEditorView` writes for a field
are exactly its view when it is not hidden and exactly one opening fragment,
the view and one closing fragment when it is; over a field list the number of
opening wrappers `Form` adds and the number of closing wrappers it adds are
both the number of fields hidden for `Role`. -/
theorem addFieldToEditorView_wrapper_balance {Post : Type} (φ : Faults) (Role : String)
    (st : State) (f : Field) (el : Elements Post) (post : Post) (fields : List Field) :
    (addFieldToEditorView φ Role st f).1.editor.ViewBuf.calls =
      st.editor.ViewBuf.calls ++
        [if hiddenFor Role f.Role = true
          then utf8 "<div style=\"display:none;\">" ++ f.View ++ utf8 "</div>" else f.View] ∧
    (addFieldToEditorView bytesBuffer Role st f).1.editor.ViewBuf.data =
      st.editor.ViewBuf.data ++
        (if hiddenFor Role f.Role = true
          then utf8 "<div style=\"display:none;\">" ++ f.View ++ utf8 "</div>" else f.View) ∧
    fieldCalls bytesBuffer Role el post fields =
      fields.map (fun g => if hiddenFor Role g.Role = true
        then utf8 "<div style=\"display:none;\">" ++ g.View ++ utf8 "</div>" else g.View) ∧
    openersAdded (fieldCalls bytesBuffer Role el post fields) fields =
      (fields.filter (fun g => hiddenFor Role g.Role)).length ∧
    closersAdded (fieldCalls bytesBuffer Role el post fields) fields =
      (fields.filter (fun g => hiddenFor Role g.Role)).length := by
  refine ⟨?_, ?_, ?_, ?_, ?_⟩
  · rw [addFieldToEditorView_calls]
    rfl
  · rw [addFieldToEditorView_bytesBuffer]
    rfl
  · rw [fieldCalls_bytesBuffer]
    rfl
  · rw [fieldCalls_bytesBuffer, openersAdded_map_render]
  · rw [fieldCalls_bytesBuffer, closersAdded_map_render]

/-- C15: the default fields are never hidden. Their `Role` lists are empty, so
`hiddenFor` is false for them under every `Role`; with a buffer whose writes
succeed `addPostDefaultFieldsToEditorView` appends the slug, created and
updated fragments unwrapped, and with any buffer the write calls it makes are
these fragments, unwrapped, in this order, up to the first failure. -/
theorem defaults_never_hidden {Post : Type} (φ : Faults) (Role : String) (el : Elements Post)
    (post : Post) (st : State) :
    (defaults el post).map Field.Role = [[], [], []] ∧
    (defaults el post).map (fun f => hiddenFor Role f.Role) = [false, false, false] ∧
    addPostDefaultFieldsToEditorView bytesBuffer Role el post st =
      ({ editor := { ViewBuf :=
          { data := st.editor.ViewBuf.data ++
              (slugFragment el post ++ createdFragment el post ++ updatedFragment el post),
            calls := st.editor.ViewBuf.calls ++
              [slugFragment el post, createdFragment el post, updatedFragment el post] } },
         log := st.log }, none) ∧
    (∃ n, (addPostDefaultFieldsToEditorView φ Role el post st).1.editor.ViewBuf.calls =
      st.editor.ViewBuf.calls ++
        [slugFragment el post, createdFragment el post, updatedFragment el post].take n) := by
  refine ⟨by simp [defaults], by simp [defaults, hiddenFor_nil], ?_, ?_⟩
  · rw [addPostDefaultFieldsToEditorView, addDefaultsLoop_bytesBuffer, map_render_defaults]
    simp
  · obtain ⟨n, hn⟩ := addDefaultsLoop_calls φ Role (defaults el post) st
    rw [map_render_defaults] at hn
    exact ⟨n, hn⟩

/-- C16: a field's `Role` list behaves as a set. Two lists with the same
elements give the same `hiddenFor`, and two field lists that agree field by
field on the view and on the elements of the `Role` list give the same result
of `Form`. -/
theorem hiddenFor_and_Form_role_set {Post : Type} (φ : Faults) (Role : String)
    (el : Elements Post) (post : Post) (rs1 rs2 : List String) (fs gs : List Field)
    (hset : ∀ r, r ∈ rs1 ↔ r ∈ rs2) (hfields : List.Forall₂ sameUpToRoleSet fs gs) :
    hiddenFor Role rs1 = hiddenFor Role rs2 ∧
    Form φ Role el post fs = Form φ Role el post gs := by
  refine ⟨hiddenFor_congr Role rs1 rs2 hset, ?_⟩
  simp only [Form, FormRun, addFieldsLoop_congr φ Role fs gs hfields]

/-- C16, at the lists `["a", "b"]` and `["b", "a", "a"]`. -/
theorem hiddenFor_and_Form_role_set_witness :
    hiddenFor "a" ["a", "b"] = hiddenFor "a" ["b", "a", "a"] ∧
    Form bytesBuffer "a" sampleElements false [⟨utf8 "x", ["a", "b"]⟩] =
      Form bytesBuffer "a" sampleElements false [⟨utf8 "x", ["b", "a", "a"]⟩] :=
  hiddenFor_and_Form_role_set bytesBuffer "a" sampleElements false ["a", "b"] ["b", "a", "a"]
    [⟨utf8 "x", ["a", "b"]⟩] [⟨utf8 "x", ["b", "a", "a"]⟩]
    (by intro r; simp; tauto)
    (List.Forall₂.cons ⟨rfl, by intro r; simp; tauto⟩ List.Forall₂.nil)

/-- C17: with Go's `bytes.Buffer`, whose writes never return an error, `Form`
returns a nil error and a non-nil document and takes none of its error
branches (nothing is logged). -/
theorem Form_bytesBuffer_never_fails {Post : Type} (Role : String) (el : Elements Post)
    (post : Post) (fields : List Field) :
    (Form bytesBuffer Role el post fields).2 = none ∧
    (Form bytesBuffer Role el post fields).1 = some (referenceDocument Role el post fields) ∧
    referenceDocument Role el post fields ≠ [] ∧
    (FormRun bytesBuffer Role el post fields).2.log = [] := by
  refine ⟨by rw [Form_bytesBuffer], by rw [Form_bytesBuffer], ?_, by rw [FormRun_bytesBuffer]⟩
  intro h
  obtain ⟨t, ht⟩ := table_prefix_openHeader
  rw [referenceDocument, ← ht] at h
  have hl := congrArg List.length h
  have h7 : (utf8 "<table>").length = 7 := by decide
  simp only [List.length_append, List.length_nil, h7] at hl
  omega

/-- C18: the size of the document. Its length is the length of the document
for no caller field, plus the lengths of the fields' views, plus 33 for every
hidden field, where 33 = 27 + 6 is the length of the two wrapper fragments. -/
theorem Form_length {Post : Type} (Role : String) (el : Elements Post) (post : Post)
    (fields : List Field) :
    ∃ doc doc0,
      Form bytesBuffer Role el post fields = (some doc, none) ∧
      Form bytesBuffer Role el post [] = (some doc0, none) ∧
      doc.length = doc0.length + (fields.map (fun f => f.View.length)).sum +
        33 * (fields.filter (fun f => hiddenFor Role f.Role)).length ∧
      (utf8 "<div style=\"display:none;\">").length = 27 ∧
      (utf8 "</div>").length = 6 := by
  refine ⟨_, _, Form_bytesBuffer Role el post fields, Form_bytesBuffer Role el post [], ?_,
    length_hideOpen, length_hideClose⟩
  have hs := sum_length_render Role fields
  simp only [referenceDocument, List.length_append, List.length_flatten, hs, List.map_nil,
    List.flatten_nil, List.length_nil]
  omega

end editor
